import Mathlib

/-!
Verification development for the two dashboard applications of this
repository (src/app.py and src/sosi_app.py).

The pandas-based data pipeline is shallowly embedded: a DataFrame is a
`Table` (column labels plus rows of cell values), a cell is a `Value`
(string, rational number, date code, or the missing marker NaN/NaT), and
each cleaning / filtering / grouping fragment of the source becomes an
executable Lean function.  Python aliasing is made explicit where a claim
is about mutation: such a fragment is modelled as a function returning
both its result and the value held by the argument object after the call.
-/

namespace Dashboard

/-- A cell of a loaded table: a string, a number, a parsed date
(represented by a rational code), or the missing marker (NaN / NaT). -/
inductive Value where
  | str (s : String)
  | num (q : Rat)
  | date (d : Rat)
  | missing
deriving DecidableEq, Repr

/-- A pandas DataFrame: ordered column labels and ordered rows of cells.
Row i has its cell for column j at position j. -/
structure Table where
  cols : List String
  rows : List (List Value)
deriving DecidableEq, Repr

/-- A table is rectangular when every row has one cell per column.
Every real DataFrame satisfies this. -/
def Rect (t : Table) : Prop := ∀ r ∈ t.rows, r.length = t.cols.length

instance (t : Table) : Decidable (Rect t) := by
  unfold Rect; infer_instance

/-- Whitespace characters removed by Python str.strip with no argument. -/
def isSpace (c : Char) : Bool :=
  c = ' ' || c = '\t' || c = '\n' || c = '\r' || c = '\x0b' || c = '\x0c'

/-- Python str.strip: drop leading and trailing whitespace.  Models the
column-label cleanup df.columns.str.strip() of app.py lines 71 and 110. -/
def pyStrip (s : String) : String :=
  String.mk (List.rdropWhile isSpace (s.data.dropWhile isSpace))

/-- Position of the first column with label c (pandas label lookup). -/
def colIdx (c : String) : List String → Option Nat
  | [] => none
  | d :: ds => if d = c then some 0 else (colIdx c ds).map (· + 1)

/-- Cell of a row at the column labelled c, when the column exists and the
row is long enough. -/
def getCell (cols : List String) (row : List Value) (c : String) : Option Value :=
  match colIdx c cols with
  | some i => row.get? i
  | none => none

/-- One cell under df.fillna of the string Unknown: the missing marker
becomes the sentinel string, every other value is kept. -/
def fillCell (v : Value) : Value :=
  match v with
  | Value.missing => Value.str "Unknown"
  | w => w

/-- df.fillna of the string Unknown, applied to every cell
(app.py lines 74 and 113). -/
def fillna (t : Table) : Table :=
  Table.mk t.cols (t.rows.map (fun r => r.map fillCell))

/-- df.columns.str.strip() applied to the column labels. -/
def stripCols (t : Table) : Table :=
  Table.mk (t.cols.map pyStrip) t.rows

/-- First list is an initial segment of the second. -/
def leadsWith : List Char → List Char → Bool
  | [], _ => true
  | _ :: _, [] => false
  | p :: ps, c :: cs => (p = c) && leadsWith ps cs

/-- Occurrence of pat somewhere inside s. -/
def hasSub : List Char → List Char → Bool
  | [], pat => pat.isEmpty
  | c :: tl, pat => leadsWith pat (c :: tl) || hasSub tl pat

/-- ASCII lowercasing of a string, as Char.toLower maps only the ASCII
range; the tokens of the scoring heuristic are ASCII. -/
def lowerChars (s : String) : List Char := s.data.map Char.toLower

/-- Series.str.contains with case=False and na=False for an alternation
of literal tokens (the regex patterns of app.py lines 92 and 94): a
string cell matches iff some token occurs in it case-insensitively; a
non-string cell never matches (the .str accessor yields NaN there and
na=False turns that into False). -/
def cellMatches (toks : List String) (v : Value) : Bool :=
  match v with
  | Value.str s => toks.any (fun tok => hasSub (lowerChars s) (lowerChars tok))
  | _ => false

/-- Positive tokens of the scoring heuristic (app.py line 92). -/
def posTokens : List String := ["Yes", "Good", "Excellent"]

/-- Negative tokens of the scoring heuristic (app.py line 94). -/
def negTokens : List String := ["No", "Poor", "Bad"]

/-- The five service-quality signal columns of app.py lines 78-84,
with the embedded newlines of the source kept verbatim. -/
def service_columns : List String :=
  ["Interaction with Security Guards",
   "Interaction with Reception Staff",
   "Interaction with Frontline Staff",
   "Does Facility have signs posted notifying clients \nto the right of interpretation services?",
   "Did the Secret Shopper receive the informat\nion or service asked for?"]

/-- Net effect on one row of the two loc updates for one signal column:
plus one half on a positive match, minus one half on a negative match;
both apply when the cell matches both token lists. -/
def contribution (v : Value) : Rat :=
  (if cellMatches posTokens v then (1 : Rat) / 2 else 0)
    - (if cellMatches negTokens v then (1 : Rat) / 2 else 0)

/-- Contribution of the signal column labelled c to a row: zero when the
column is absent (the loop guard col in df.columns of app.py line 90). -/
def colContribution (cols : List String) (row : List Value) (c : String) : Rat :=
  match getCell cols row c with
  | some v => contribution v
  | none => 0

/-- Series.clip lo hi. -/
def clip (lo hi x : Rat) : Rat := max lo (min x hi)

/-- Rating of one row: the default 3 of app.py line 87, the adjustment
loop of lines 89-94 summed over the signal columns, and the clip of
line 97 to the interval from 1 to 5. -/
def ratingScore (signal : List String) (cols : List String) (row : List Value) : Rat :=
  clip 1 5 (3 + (signal.map (colContribution cols row)).sum)

/-- Column assignment df of label c gets a Series computed per row:
overwrite the column in place when the label exists, else append a new
column on the right. -/
def setColumnBy (t : Table) (c : String) (f : List Value → Value) : Table :=
  match colIdx c t.cols with
  | some i => Table.mk t.cols (t.rows.map (fun r => r.set i (f r)))
  | none => Table.mk (t.cols ++ [c]) (t.rows.map (fun r => r ++ [f r]))

/-- Body of clean_lass_data (app.py lines 62-99) on an actual table: the
function first rebinds df to df.copy(), then strips column labels, fills
missing cells with the sentinel, and attaches the clipped rating_score
column. -/
def clean_lass_body (t : Table) : Table :=
  let t2 := fillna (stripCols t)
  setColumnBy t2 "rating_score" (fun r => Value.num (ratingScore service_columns t2.cols r))

/-- clean_lass_data (app.py lines 62-99): the None guard of lines 64-65
followed by the cleaning body on the copy. -/
def clean_lass_data : Option Table → Option Table
  | none => none
  | some df => some (clean_lass_body df)

/-- Numeric value of a decimal digit string read left to right. -/
def natOfDigits (cs : List Char) : Nat :=
  cs.foldl (fun a c => a * 10 + (c.toNat - 48)) 0

/-- Decimal number accepted by pd.to_numeric: optional sign, integer
part, optional fractional part (scientific notation is not used by any
cell this development evaluates). -/
def parseNumeric (s : String) : Option Rat :=
  let signed : Rat × List Char :=
    match s.data with
    | '-' :: t => (-1, t)
    | '+' :: t => (1, t)
    | cs => (1, cs)
  let ip := signed.2.takeWhile Char.isDigit
  let rest := signed.2.drop ip.length
  match rest with
  | [] => if ip.isEmpty then none else some (signed.1 * natOfDigits ip)
  | '.' :: fp =>
      if fp.all Char.isDigit && !(ip.isEmpty && fp.isEmpty) then
        some (signed.1 * ((natOfDigits ip : Rat) + (natOfDigits fp : Rat) / 10 ^ fp.length))
      else none
  | _ => none

/-- pd.to_numeric with errors coerce on one cell: numbers are kept, a
date becomes its numeric code, a parseable string becomes a number, and
everything else becomes the missing-numeric marker NaN. -/
def toNumeric (v : Value) : Value :=
  match v with
  | Value.num q => Value.num q
  | Value.date d => Value.num d
  | Value.missing => Value.missing
  | Value.str s =>
      match parseNumeric s with
      | some q => Value.num q
      | none => Value.missing

/-- Coercion of the column labelled c by f, in place: each row keeps its
shape and only the cell at the column position changes; a table without
the column is returned unchanged (the presence guards of the source). -/
def coerceColumn (t : Table) (c : String) (f : Value → Value) : Table :=
  match colIdx c t.cols with
  | some i => Table.mk t.cols (t.rows.map (fun r => r.set i (f (r.getD i Value.missing))))
  | none => t

/-- Label of the LEP population column (app.py lines 116-117). -/
def lepCol : String := "LEP Population (Estimate)"

/-- Body of clean_lep_data (app.py lines 101-119) on an actual table:
strip labels, fill missing cells with the sentinel, then coerce the
population column to numeric when it exists. -/
def clean_lep_body (t : Table) : Table :=
  coerceColumn (fillna (stripCols t)) lepCol toNumeric

/-- clean_lep_data (app.py lines 101-119): the None guard of lines
103-104 followed by the cleaning body on the copy. -/
def clean_lep_data : Option Table → Option Table
  | none => none
  | some df => some (clean_lep_body df)

/-- Series.isin test for the cell of a row at the column labelled c:
membership of the cell value in the selection list.  The source only
evaluates it on columns present in the table (the sidebar sets an empty
selection when the column is absent, app.py lines 148-178). -/
def isinCell (cols : List String) (row : List Value) (c : String) (sel : List Value) : Bool :=
  match getCell cols row c with
  | some v => decide (v ∈ sel)
  | none => false

/-- The filter block of app.py lines 180-193: a copy of the table, then
one conditional isin filter per sidebar selection; a selection list that
is empty (Python falsy) leaves the rows untouched. -/
def filtered_lass (t : Table) (selAgencies selBoroughs selLanguages : List Value) : Table :=
  let r1 := if selAgencies.isEmpty then t.rows
            else t.rows.filter (fun r => isinCell t.cols r "Agency" selAgencies)
  let r2 := if selBoroughs.isEmpty then r1
            else r1.filter (fun r => isinCell t.cols r "Borough" selBoroughs)
  let r3 := if selLanguages.isEmpty then r2
            else r2.filter (fun r => isinCell t.cols r "Secret Shopper Language" selLanguages)
  Table.mk t.cols r3

/-- Outcome of one pd.read_csv call, abstracting the network and the
parser: either a parsed table or the text of the raised exception. -/
def FetchOutcome := Except String Table

/-- load_lass_data (app.py lines 42-50): the try block returns the parsed
frame paired with no error; the except block returns None paired with a
message naming the cause. -/
def load_lass_data (fetch : Except String Table) : Option Table × Option String :=
  match fetch with
  | Except.ok df => (some df, none)
  | Except.error e => (none, some ("Error loading LASS data: " ++ e))

/-- load_lep_data (app.py lines 52-60), same shape as load_lass_data. -/
def load_lep_data (fetch : Except String Table) : Option Table × Option String :=
  match fetch with
  | Except.ok df => (some df, none)
  | Except.error e => (none, some ("Error loading LEP data: " ++ e))

/-- Outcome of one local spreadsheet read in sosi_app.py lines 57-72:
the file is absent, or reading raises with a message, or a table is
parsed. -/
inductive FileOutcome where
  | absent
  | parseError (msg : String)
  | ok (t : Table)
deriving DecidableEq, Repr

/-- One iteration of the loop of load_local_excel_files (sosi_app.py
lines 57-72): a missing file stores None, the except clause also stores
None and discards the exception, success stores the frame. -/
def loadExcelFile (o : FileOutcome) : Option Table :=
  match o with
  | FileOutcome.absent => none
  | FileOutcome.parseError _ => none
  | FileOutcome.ok t => some t

/-- load_local_excel_files (sosi_app.py lines 45-74) over the three
configured files (historical, linguists, staging), given the outcome of
each read.  The returned mapping carries no error channel. -/
def load_local_excel_files (hist ling stag : FileOutcome) :
    Option Table × Option Table × Option Table :=
  (loadExcelFile hist, loadExcelFile ling, loadExcelFile stag)

/-- Metric values of a list of cells that take part in a pandas sum or
mean: exactly the numeric ones (NaN is skipped; the metric columns of
the source are numeric-coerced upstream, so no string reaches them). -/
def numVals (l : List Value) : List Rat :=
  l.filterMap (fun v =>
    match v with
    | Value.num q => some q
    | _ => none)

/-- Key and metric cell of every row, with rows whose key is the missing
marker dropped (pandas groupby drops missing keys); empty when either
column is absent, a case the source guards against. -/
def groupPairs (t : Table) (k m : String) : List (Value × Value) :=
  match colIdx k t.cols, colIdx m t.cols with
  | some ki, some mi =>
      (t.rows.map (fun r => (r.getD ki Value.missing, r.getD mi Value.missing))).filter
        (fun p => decide (p.1 ≠ Value.missing))
  | _, _ => []

/-- Distinct values in order of first appearance, given the values
already seen. -/
def dedupFirstAux (seen : List Value) : List Value → List Value
  | [] => []
  | v :: vs => if v ∈ seen then dedupFirstAux seen vs else v :: dedupFirstAux (v :: seen) vs

/-- Distinct values in order of first appearance. -/
def dedupFirst (l : List Value) : List Value := dedupFirstAux [] l

/-- Distinct group keys, in order of first appearance.  The sorting of
the keys performed by pandas groupby is not modelled; every theorem
below about groups is insensitive to the order of the groups. -/
def groupKeys (t : Table) (k m : String) : List Value :=
  dedupFirst ((groupPairs t k m).map Prod.fst)

/-- Metric values contributing to the group of key g. -/
def groupVals (t : Table) (k m : String) (g : Value) : List Rat :=
  numVals (((groupPairs t k m).filter (fun p => decide (p.1 = g))).map Prod.snd)

/-- df.groupby(k)(m).sum() (app.py line 340): per group, the sum of the
non-missing metric values, zero for a group with none. -/
def groupby_sum (t : Table) (k m : String) : List (Value × Rat) :=
  (groupKeys t k m).map (fun g => (g, (groupVals t k m g).sum))

/-- df.groupby(k)(m).mean() (sosi_app.py line 556): per group, the mean
of the non-missing metric values, or the missing marker NaN (here none)
for a group with no contributing value; such a group stays in the
result. -/
def groupby_mean (t : Table) (k m : String) : List (Value × Option Rat) :=
  (groupKeys t k m).map (fun g =>
    let vs := groupVals t k m g
    (g, if vs.isEmpty then none else some (vs.sum / vs.length)))

/-- Encoding of a calendar date as a rational code. -/
def dateCode (y m d : Nat) : Rat := (y * 10000 + m * 100 + d : Nat)

/-- Split a character list at every dash. -/
def splitDash : List Char → List (List Char)
  | [] => [[]]
  | c :: cs =>
      let r := splitDash cs
      if c = '-' then [] :: r
      else
        match r with
        | [] => [[c]]
        | h :: tl => (c :: h) :: tl

/-- Date string accepted by the model of pd.to_datetime: an ISO
year-month-day with numeric fields and plausible month and day. -/
def parseDate (s : String) : Option Rat :=
  match splitDash s.data with
  | [ys, ms, ds] =>
      if ys.all Char.isDigit && ms.all Char.isDigit && ds.all Char.isDigit
          && !ys.isEmpty && !ms.isEmpty && !ds.isEmpty
          && decide (1 ≤ natOfDigits ms) && decide (natOfDigits ms ≤ 12)
          && decide (1 ≤ natOfDigits ds) && decide (natOfDigits ds ≤ 31) then
        some (dateCode (natOfDigits ys) (natOfDigits ms) (natOfDigits ds))
      else none
  | _ => none

/-- pd.to_datetime with errors coerce on one cell: dates are kept, a
number is read as an epoch-style code, a parseable string becomes a
date, everything else becomes the missing marker NaT. -/
def toDatetime (v : Value) : Value :=
  match v with
  | Value.date d => Value.date d
  | Value.num q => Value.date q
  | Value.missing => Value.missing
  | Value.str s =>
      match parseDate s with
      | some d => Value.date d
      | none => Value.missing

/-- Coerce every listed column that is present to datetime, in place. -/
def coerceDates (dateCols : List String) (t : Table) : Table :=
  dateCols.foldl (fun acc c => coerceColumn acc c toDatetime) t

/-- Date columns of the historical sheet (sosi_app.py line 186). -/
def hist_date_columns : List String := ["Request Date", "Hearing Date", "Row Added"]

/-- Date columns of the staging sheet (sosi_app.py line 461). -/
def staging_date_columns : List String := ["Date of request", "Hearing Date", "Timestamp"]

/-- Call-level model of clean_lass_data on a table object: first
component the returned table, second the value held by the argument
object after the call.  The first statement of the function rebinds df
to df.copy() (app.py line 68), so every later write targets the copy and
the caller's object keeps its original value. -/
def clean_lass_data_call (t : Table) : Table × Table :=
  (clean_lass_body t, t)

/-- Call-level model of clean_lep_data, with the same df.copy() first
statement (app.py line 107). -/
def clean_lep_data_call (t : Table) : Table × Table :=
  (clean_lep_body t, t)

/-- Call-level model of the hist_data date coercion loop (sosi_app.py
lines 186-190): the loop assigns pd.to_datetime columns back into
hist_data itself, so the argument object afterwards holds the coerced
table — result and argument are the same object. -/
def hist_date_coercion_call (t : Table) : Table × Table :=
  let u := coerceDates hist_date_columns t
  (u, u)

/-- Call-level model of the staging_df date coercion loop (sosi_app.py
lines 460-464), which likewise assigns the coerced columns back into the
frame taken from the loaded data. -/
def staging_date_coercion_call (t : Table) : Table × Table :=
  let u := coerceDates staging_date_columns t
  (u, u)

/-- Scenario table of the spec: one signal column holding Yes, No and the
sentinel Unknown. -/
def lassScenario : Table :=
  Table.mk ["Interaction with Security Guards"]
    [[Value.str "Yes"], [Value.str "No"], [Value.str "Unknown"]]

/-- A one-row table with an Agency column, used to evaluate the filter on
an empty selection. -/
def oneAgencyRow : Table :=
  Table.mk ["Agency"] [[Value.str "City Agency"]]

/-- A one-row staging table whose Timestamp cell is a date string. -/
def stagingOneRow : Table :=
  Table.mk ["Timestamp"] [[Value.str "2025-01-01"]]

/-- A grouping table with one group of metric values 10, missing, 20 and
one group whose only metric value is missing. -/
def groupScenario : Table :=
  Table.mk ["Language", "Billable time (numeric)"]
    [[Value.str "Spanish", Value.num 10],
     [Value.str "Spanish", Value.missing],
     [Value.str "Spanish", Value.num 20],
     [Value.str "Arabic", Value.missing]]

/-- A small rectangular table with a missing cell and a numeric string
in the population column. -/
def idemWitnessTable : Table :=
  Table.mk ["Agency ", "LEP Population (Estimate)"]
    [[Value.missing, Value.str "1200"]]

end Dashboard

namespace Dashboard

/-- Clipping a value already inside the interval returns it unchanged. -/
lemma clip_of_le (lo hi x : Rat) (h1 : lo ≤ x) (h2 : x ≤ hi) : clip lo hi x = x := by
  unfold clip
  rw [min_eq_left h2, max_eq_right h1]

/-- C10: given a null input instead of a table, each cleaning function
returns null unchanged rather than raising: both clean_lass_data and
clean_lep_data map None to None. -/
theorem C10_none_passthrough :
    clean_lass_data none = none ∧ clean_lep_data none = none :=
  ⟨rfl, rfl⟩

/-- C7: for every record and every list of signal columns, the derived
rating score lies in the closed interval from 1 to 5, however many
signal columns are present or absent in the record. -/
theorem C7_rating_score_bounds (signal cols : List String) (row : List Value) :
    1 ≤ ratingScore signal cols row ∧ ratingScore signal cols row ≤ 5 := by
  unfold ratingScore clip
  exact ⟨le_max_left 1 _, max_le (by norm_num) (min_le_right _ _)⟩

/-- C1: evaluation of the code at the spec scenario.  On the table whose
single signal column holds Yes, No, Unknown, clean_lass_data yields the
rating scores 3.5, 2.5 and 2.5 — not the 3.5, 2.5, 3.0 the claim states:
the sentinel Unknown contains the negative token No as a
case-insensitive substring, so the scoring loop subtracts one half for
it instead of leaving the neutral 3. -/
theorem C1_unknown_scored_negative :
    clean_lass_data (some lassScenario) =
      some (Table.mk ["Interaction with Security Guards", "rating_score"]
        [[Value.str "Yes", Value.num (7 / 2)],
         [Value.str "No", Value.num (5 / 2)],
         [Value.str "Unknown", Value.num (5 / 2)]]) := by
  have hs : pyStrip "Interaction with Security Guards" = "Interaction with Security Guards" := by
    decide
  have h1 : cellMatches posTokens (Value.str "Yes") = true := by decide
  have h2 : cellMatches negTokens (Value.str "Yes") = false := by decide
  have h3 : cellMatches posTokens (Value.str "No") = false := by decide
  have h4 : cellMatches negTokens (Value.str "No") = true := by decide
  have h5 : cellMatches posTokens (Value.str "Unknown") = false := by decide
  have h6 : cellMatches negTokens (Value.str "Unknown") = true := by decide
  simp +decide [clean_lass_data, clean_lass_body, lassScenario, fillna, stripCols, setColumnBy,
    ratingScore, colContribution, getCell, colIdx, contribution, service_columns,
    fillCell, hs, h1, h2, h3, h4, h5, h6]
  constructor <;>
  · rw [clip_of_le] <;> norm_num

/-- C2, counterexample: mapping the Agency column, present in the table,
to an empty accepted set does not match no record — the code treats the
empty (falsy) selection as no restriction and leaves the one-row table
unchanged and non-empty. -/
theorem C2_empty_set_counterexample :
    filtered_lass oneAgencyRow [] [] [] = oneAgencyRow ∧ oneAgencyRow.rows ≠ [] :=
  ⟨rfl, by decide⟩

/-- C2, amended: an empty accepted set for a column imposes no
restriction, exactly like omitting the column; with every selection
empty the table is returned unchanged, and an empty Agency selection
drops the Agency filter step while the others still apply. -/
theorem C2_empty_set_no_restriction (t : Table) (b l : List Value) :
    filtered_lass t [] [] [] = t ∧
    filtered_lass t [] b l =
      Table.mk t.cols
        (let r2 := if b.isEmpty then t.rows
                   else t.rows.filter (fun r => isinCell t.cols r "Borough" b)
         if l.isEmpty then r2
         else r2.filter (fun r => isinCell t.cols r "Secret Shopper Language" l)) := by
  constructor
  · cases t
    rfl
  · rfl

/-- C3, counterexample: the staging date coercion of sosi_app.py writes
the coerced column back into its input frame — after the call on a table
whose Timestamp cell is a date string, the argument object no longer
holds its original value. -/
theorem C3_staging_coercion_mutates :
    (staging_date_coercion_call stagingOneRow).2 ≠ stagingOneRow := by
  decide

/-- C3, amended: the two cleaning functions of app.py copy their input
frame first and leave the argument object unchanged, but the date
coercions of sosi_app.py assign the coerced columns back into the same
frame, so there the argument object afterwards holds the coerced result
itself. -/
theorem C3_mutation_profile :
    (∀ t, (clean_lass_data_call t).2 = t) ∧
    (∀ t, (clean_lep_data_call t).2 = t) ∧
    (∀ t, (hist_date_coercion_call t).2 = (hist_date_coercion_call t).1) ∧
    (∀ t, (staging_date_coercion_call t).2 = (staging_date_coercion_call t).1) :=
  ⟨fun _ => rfl, fun _ => rfl, fun _ => rfl, fun _ => rfl⟩

/-- C4, counterexample: a parse failure in the local spreadsheet loader
produces a result identical to the one for a missing file — None for the
affected key and no message anywhere — so no human-readable cause is
carried by the error result. -/
theorem C4_excel_failure_carries_no_cause :
    load_local_excel_files FileOutcome.absent FileOutcome.absent
        (FileOutcome.parseError "parse failure") =
      load_local_excel_files FileOutcome.absent FileOutcome.absent FileOutcome.absent ∧
    (load_local_excel_files FileOutcome.absent FileOutcome.absent
        (FileOutcome.parseError "parse failure")).2.2 = none :=
  ⟨rfl, rfl⟩

/-- C4, amended: the two remote CSV loaders return the parsed table with
no error on success — never a null-but-successful result — and None with
a human-readable cause on failure, raising past neither boundary; the
local spreadsheet loader also never raises, but swallows its failures,
mapping a missing file and a read error alike to None without a cause. -/
theorem C4_loader_result_shape :
    (∀ t, load_lass_data (Except.ok t) = (some t, none)) ∧
    (∀ e, load_lass_data (Except.error e) =
      (none, some ("Error loading LASS data: " ++ e))) ∧
    (∀ t, load_lep_data (Except.ok t) = (some t, none)) ∧
    (∀ e, load_lep_data (Except.error e) =
      (none, some ("Error loading LEP data: " ++ e))) ∧
    (∀ t, loadExcelFile (FileOutcome.ok t) = some t) ∧
    (∀ m, loadExcelFile (FileOutcome.parseError m) = none) ∧
    loadExcelFile FileOutcome.absent = none :=
  ⟨fun _ => rfl, fun _ => rfl, fun _ => rfl, fun _ => rfl, fun _ => rfl, fun _ => rfl, rfl⟩

/-- C6: the filtered result is exactly the original rows filtered by the
conjunction of the per-column membership tests (a column with an empty
selection imposing nothing), in original order; it is never longer than
the input; and the empty spec returns the table unchanged. -/
theorem C6_filter_characterization (t : Table) (a b l : List Value) :
    filtered_lass t a b l =
      Table.mk t.cols (t.rows.filter (fun r =>
        (a.isEmpty || isinCell t.cols r "Agency" a) &&
        ((b.isEmpty || isinCell t.cols r "Borough" b) &&
         (l.isEmpty || isinCell t.cols r "Secret Shopper Language" l)))) ∧
    (filtered_lass t a b l).rows.length ≤ t.rows.length ∧
    filtered_lass t [] [] [] = t := by
  have key : filtered_lass t a b l =
      Table.mk t.cols (t.rows.filter (fun r =>
        (a.isEmpty || isinCell t.cols r "Agency" a) &&
        ((b.isEmpty || isinCell t.cols r "Borough" b) &&
         (l.isEmpty || isinCell t.cols r "Secret Shopper Language" l)))) := by
    unfold filtered_lass
    by_cases ha : a.isEmpty <;> by_cases hb : b.isEmpty <;> by_cases hl : l.isEmpty <;>
      simp [ha, hb, hl, Bool.and_comm, Bool.and_assoc, Bool.and_left_comm]
  refine ⟨key, ?_, by cases t; rfl⟩
  rw [key]
  exact List.length_filter_le _ _

/-- C9: the rating is invariant under permutation of the signal-column
list (the adjustments are additive), and a cell whose text matches both
a positive and a negative token receives both adjustments — net
contribution zero — while a one-sided match contributes plus or minus
one half. -/
theorem C9_score_additive_invariance :
    (∀ (L1 L2 cols : List String) (row : List Value), L1.Perm L2 →
      ratingScore L1 cols row = ratingScore L2 cols row) ∧
    (∀ v, cellMatches posTokens v = true → cellMatches negTokens v = true →
      contribution v = 0) ∧
    (∀ v, cellMatches posTokens v = true → cellMatches negTokens v = false →
      contribution v = 1 / 2) ∧
    (∀ v, cellMatches posTokens v = false → cellMatches negTokens v = true →
      contribution v = -(1 / 2)) := by
  refine ⟨?_, ?_, ?_, ?_⟩
  · intro L1 L2 cols row h
    unfold ratingScore
    rw [(h.map (colContribution cols row)).sum_eq]
  · intro v h1 h2
    unfold contribution
    rw [h1, h2]
    norm_num
  · intro v h1 h2
    unfold contribution
    rw [h1, h2]
    norm_num
  · intro v h1 h2
    unfold contribution
    rw [h1, h2]
    norm_num

/-- Witness for C9 at concrete inputs: a transposed two-column list and
the ambiguous cell text Yes and No. -/
theorem C9_witness :
    (["Interaction with Security Guards", "Borough"] : List String).Perm
        ["Borough", "Interaction with Security Guards"] ∧
    ratingScore ["Interaction with Security Guards", "Borough"] ["Borough"]
        [Value.str "Good"] =
      ratingScore ["Borough", "Interaction with Security Guards"] ["Borough"]
        [Value.str "Good"] ∧
    cellMatches posTokens (Value.str "Yes and No") = true ∧
    cellMatches negTokens (Value.str "Yes and No") = true ∧
    contribution (Value.str "Yes and No") = 0 :=
  ⟨by decide,
   C9_score_additive_invariance.1 _ _ _ _ (by decide),
   by decide, by decide,
   C9_score_additive_invariance.2.1 _ (by decide) (by decide)⟩

/-- Appending an already-seen value on the right changes nothing in the
first-appearance dedup. -/
lemma dedupFirstAux_append_mem (v : Value) :
    ∀ (xs seen : List Value), v ∈ xs ∨ v ∈ seen →
      dedupFirstAux seen (xs ++ [v]) = dedupFirstAux seen xs := by
  intro xs
  induction xs with
  | nil =>
      intro seen h
      rcases h with h | h
      · cases h
      · simp [dedupFirstAux, h]
  | cons x tl ih =>
      intro seen h
      by_cases hx : x ∈ seen
      · simp only [List.cons_append, dedupFirstAux, if_pos hx]
        apply ih
        rcases h with h | h
        · rcases List.mem_cons.mp h with rfl | h2
          · exact Or.inr hx
          · exact Or.inl h2
        · exact Or.inr h
      · simp only [List.cons_append, dedupFirstAux, if_neg hx]
        congr 1
        apply ih
        rcases h with h | h
        · rcases List.mem_cons.mp h with rfl | h2
          · exact Or.inr (List.mem_cons_self _ _)
          · exact Or.inl h2
        · exact Or.inr (List.mem_cons_of_mem _ h)

/-- Appending a value already present leaves the dedup unchanged. -/
lemma dedupFirst_append_mem (v : Value) (xs : List Value) (h : v ∈ xs) :
    dedupFirst (xs ++ [v]) = dedupFirst xs :=
  dedupFirstAux_append_mem v xs [] (Or.inl h)

/-- The contributing numeric values of an appended list split. -/
lemma numVals_append (a b : List Value) : numVals (a ++ b) = numVals a ++ numVals b :=
  List.filterMap_append a b _

/-- Every key reaching a group is not the missing marker (pandas groupby
drops missing keys). -/
lemma groupPairs_fst_ne (t : Table) (k m : String) (p : Value × Value)
    (hp : p ∈ groupPairs t k m) : p.1 ≠ Value.missing := by
  unfold groupPairs at hp
  cases hk : colIdx k t.cols with
  | none =>
      simp only [hk] at hp
      cases hp
  | some ki =>
      simp only [hk] at hp
      cases hm : colIdx m t.cols with
      | none => simp only [hm] at hp; cases hp
      | some mi =>
          simp only [hm] at hp
          exact of_decide_eq_true (List.mem_filter.mp hp).2

/-- Appending one row appends at most one key-metric pair. -/
lemma groupPairs_append (cols : List String) (rows : List (List Value)) (r : List Value)
    (k m : String) (ki mi : Nat) (hk : colIdx k cols = some ki)
    (hm : colIdx m cols = some mi) :
    groupPairs (Table.mk cols (rows ++ [r])) k m =
      groupPairs (Table.mk cols rows) k m ++
        (if r.getD ki Value.missing = Value.missing then []
         else [(r.getD ki Value.missing, r.getD mi Value.missing)]) := by
  unfold groupPairs
  simp only [hk, hm, List.map_append, List.filter_append, List.map_cons, List.map_nil,
    List.filter_cons, List.filter_nil]
  by_cases h : r.getD ki Value.missing = Value.missing <;> simp [h]

/-- C8, counterexample: on the scenario table the group whose only
metric value is missing is not excluded from the mean result — it stays
in it, carrying the undefined-mean marker, so the result has two groups,
not one. -/
theorem C8_undefined_mean_group_kept :
    groupby_mean groupScenario "Language" "Billable time (numeric)" =
      [(Value.str "Spanish", some 15), (Value.str "Arabic", none)] := by
  simp +decide [groupby_mean, groupKeys, groupPairs, groupVals, numVals, groupScenario,
    colIdx, dedupFirst, dedupFirstAux]
  norm_num

/-- C8, amended: missing metric values are excluded from grouped sums
and means — the scenario group 10, missing, 20 has mean 15, and
appending a row whose metric cell is missing (with a known or missing
key) changes neither the grouped sums nor the grouped means — and a
group with zero contributing values is reported with sum 0 and an
undefined mean, remaining in the result rather than being dropped. -/
theorem C8_aggregation_skips_missing :
    (Value.str "Spanish", some (15 : Rat)) ∈
        groupby_mean groupScenario "Language" "Billable time (numeric)" ∧
    (Value.str "Arabic", (0 : Rat)) ∈
        groupby_sum groupScenario "Language" "Billable time (numeric)" ∧
    (Value.str "Arabic", (none : Option Rat)) ∈
        groupby_mean groupScenario "Language" "Billable time (numeric)" ∧
    (∀ (cols : List String) (rows : List (List Value)) (r : List Value)
        (k m : String) (ki mi : Nat), colIdx k cols = some ki →
      colIdx m cols = some mi →
      r.getD mi Value.missing = Value.missing →
      (r.getD ki Value.missing = Value.missing ∨
        r.getD ki Value.missing ∈ (groupPairs (Table.mk cols rows) k m).map Prod.fst) →
      groupby_sum (Table.mk cols (rows ++ [r])) k m =
          groupby_sum (Table.mk cols rows) k m ∧
        groupby_mean (Table.mk cols (rows ++ [r])) k m =
          groupby_mean (Table.mk cols rows) k m) := by
  have hmean : groupby_mean groupScenario "Language" "Billable time (numeric)" =
      [(Value.str "Spanish", some 15), (Value.str "Arabic", none)] := by
    simp +decide [groupby_mean, groupKeys, groupPairs, groupVals, numVals, groupScenario,
      colIdx, dedupFirst, dedupFirstAux]
    norm_num
  have hsum : groupby_sum groupScenario "Language" "Billable time (numeric)" =
      [(Value.str "Spanish", 30), (Value.str "Arabic", 0)] := by
    simp +decide [groupby_sum, groupKeys, groupPairs, groupVals, numVals, groupScenario,
      colIdx, dedupFirst, dedupFirstAux]
    norm_num
  refine ⟨by rw [hmean]; simp, by rw [hsum]; simp, by rw [hmean]; simp, ?_⟩
  intro cols rows r k m ki mi hk hm hmiss hkey
  rcases hkey with hkm | hin
  · have hp : groupPairs (Table.mk cols (rows ++ [r])) k m =
        groupPairs (Table.mk cols rows) k m := by
      rw [groupPairs_append cols rows r k m ki mi hk hm, if_pos hkm, List.append_nil]
    constructor
    · unfold groupby_sum groupKeys groupVals
      rw [hp]
    · unfold groupby_mean groupKeys groupVals
      rw [hp]
  · have hne : ¬ r.getD ki Value.missing = Value.missing := by
      intro hcontra
      rw [hcontra] at hin
      rcases List.mem_map.mp hin with ⟨p, hpmem, hfst⟩
      exact groupPairs_fst_ne (Table.mk cols rows) k m p hpmem hfst
    have hp : groupPairs (Table.mk cols (rows ++ [r])) k m =
        groupPairs (Table.mk cols rows) k m ++
          [(r.getD ki Value.missing, Value.missing)] := by
      rw [groupPairs_append cols rows r k m ki mi hk hm, if_neg hne, hmiss]
    have hkeys : groupKeys (Table.mk cols (rows ++ [r])) k m =
        groupKeys (Table.mk cols rows) k m := by
      unfold groupKeys
      rw [hp, List.map_append]
      exact dedupFirst_append_mem _ _ hin
    have hvals : ∀ g, groupVals (Table.mk cols (rows ++ [r])) k m g =
        groupVals (Table.mk cols rows) k m g := by
      intro g
      unfold groupVals
      rw [hp, List.filter_append, List.map_append, numVals_append]
      have hnil : numVals (List.map Prod.snd
          (List.filter (fun p => decide (p.1 = g))
            [(r.getD ki Value.missing, Value.missing)])) = [] := by
        by_cases hg : r.getD ki Value.missing = g <;> simp [hg, numVals]
      rw [hnil, List.append_nil]
    constructor
    · unfold groupby_sum
      rw [hkeys]
      simp only [hvals]
    · unfold groupby_mean
      rw [hkeys]
      simp only [hvals]

/-- Witness for C8 at a concrete input: appending the row with key X and
a missing metric cell to a one-row table leaves both aggregates
unchanged. -/
theorem C8_witness :
    colIdx "G" ["G", "M"] = some 0 ∧
    colIdx "M" ["G", "M"] = some 1 ∧
    [Value.str "X", Value.missing].getD 1 Value.missing = Value.missing ∧
    ([Value.str "X", Value.missing].getD 0 Value.missing = Value.missing ∨
      [Value.str "X", Value.missing].getD 0 Value.missing ∈
        (groupPairs (Table.mk ["G", "M"] [[Value.str "X", Value.num 1]]) "G" "M").map
          Prod.fst) ∧
    (groupby_sum (Table.mk ["G", "M"]
          ([[Value.str "X", Value.num 1]] ++ [[Value.str "X", Value.missing]])) "G" "M" =
        groupby_sum (Table.mk ["G", "M"] [[Value.str "X", Value.num 1]]) "G" "M" ∧
      groupby_mean (Table.mk ["G", "M"]
          ([[Value.str "X", Value.num 1]] ++ [[Value.str "X", Value.missing]])) "G" "M" =
        groupby_mean (Table.mk ["G", "M"] [[Value.str "X", Value.num 1]]) "G" "M") :=
  ⟨by decide, by decide, by decide, by decide,
   C8_aggregation_skips_missing.2.2.2 ["G", "M"] [[Value.str "X", Value.num 1]]
     [Value.str "X", Value.missing] "G" "M" 0 1 (by decide) (by decide) (by decide)
     (by decide)⟩

lemma dropWhile_rdropWhile_dropWhile (p : Char → Bool) (l : List Char) :
    List.dropWhile p (List.rdropWhile p (List.dropWhile p l)) =
      List.rdropWhile p (List.dropWhile p l) := by
  rcases List.rdropWhile_prefix p (List.dropWhile p l) with ⟨t, ht⟩
  cases hB : List.rdropWhile p (List.dropWhile p l) with
  | nil => rfl
  | cons b bs =>
      have hA : List.dropWhile p l = b :: (bs ++ t) := by
        rw [← ht, hB]
        rfl
      have hne : List.dropWhile p l ≠ [] := by rw [hA]; simp
      have hpb : p b = false := by
        have h1 := List.head_dropWhile_not p l hne
        have h2 : (List.dropWhile p l).head hne = b := by simp [hA]
        rwa [h2] at h1
      rw [List.dropWhile_cons, hpb]
      simp

lemma pyStrip_idem (s : String) : pyStrip (pyStrip s) = pyStrip s := by
  unfold pyStrip
  congr 1
  show List.rdropWhile isSpace (List.dropWhile isSpace
      (List.rdropWhile isSpace (List.dropWhile isSpace s.data))) = _
  rw [dropWhile_rdropWhile_dropWhile, List.rdropWhile_idempotent]

lemma fillCell_idem (v : Value) : fillCell (fillCell v) = fillCell v := by
  cases v <;> rfl

lemma colIdx_append (c : String) (l1 l2 : List String) :
    colIdx c (l1 ++ l2) =
      match colIdx c l1 with
      | some i => some i
      | none => (colIdx c l2).map (· + l1.length) := by
  induction l1 with
  | nil =>
      cases h : colIdx c l2 <;> simp [colIdx, h]
  | cons d ds ih =>
      by_cases hd : d = c
      · simp [colIdx, hd]
      · simp only [List.cons_append, colIdx, if_neg hd, List.append_eq]
        rw [ih]
        cases h : colIdx c ds with
        | some i => simp [colIdx, if_neg hd, h]
        | none =>
            cases h2 : colIdx c l2 with
            | some j =>
                simp [colIdx, if_neg hd, h, h2]
                omega
            | none => simp [colIdx, if_neg hd, h, h2]

lemma colIdx_get? (c : String) :
    ∀ (l : List String) (i : Nat), colIdx c l = some i → l.get? i = some c := by
  intro l
  induction l with
  | nil => intro i h; cases h
  | cons d ds ih =>
      intro i h
      by_cases hd : d = c
      · simp [colIdx, hd] at h
        subst h
        simp [hd]
      · simp only [colIdx, if_neg hd] at h
        cases h2 : colIdx c ds with
        | none => rw [h2] at h; cases h
        | some j =>
            rw [h2] at h
            simp at h
            subst h
            simpa using ih j h2

lemma colIdx_lt (c : String) :
    ∀ (l : List String) (i : Nat), colIdx c l = some i → i < l.length := by
  intro l i h
  have h2 := colIdx_get? c l i h
  rcases List.get?_eq_some.mp h2 with ⟨hlt, _⟩
  exact hlt

lemma set_append_len (l : List Value) (x v : Value) :
    (l ++ [x]).set l.length v = l ++ [v] := by
  induction l with
  | nil => rfl
  | cons a tl ih => simp [List.set, ih]

lemma service_ne_rating : ∀ sc ∈ service_columns, sc ≠ "rating_score" := by
  decide

lemma ratingScore_set_irrelevant (cols : List String) (r : List Value) (i : Nat) (v : Value)
    (hi : colIdx "rating_score" cols = some i) :
    ratingScore service_columns cols (r.set i v) = ratingScore service_columns cols r := by
  unfold ratingScore
  congr 2
  refine congrArg List.sum (List.map_congr_left ?_)
  intro sc hsc
  unfold colContribution getCell
  cases hj : colIdx sc cols with
  | none => rfl
  | some j =>
      have hne : j ≠ i := by
        intro hji
        subst hji
        have h1 := colIdx_get? sc cols j hj
        have h2 := colIdx_get? "rating_score" cols j hi
        rw [h1] at h2
        exact service_ne_rating sc hsc (by injection h2)
      simp only [List.get?_set_ne v r (Ne.symm hne)]

lemma ratingScore_append_irrelevant (cols : List String) (r : List Value) (v : Value)
    (c : String) (hc : ∀ sc ∈ service_columns, sc ≠ c) (hlen : r.length = cols.length) :
    ratingScore service_columns (cols ++ [c]) (r ++ [v]) =
      ratingScore service_columns cols r := by
  unfold ratingScore
  congr 2
  refine congrArg List.sum (List.map_congr_left ?_)
  intro sc hsc
  unfold colContribution getCell
  rw [colIdx_append]
  cases hj : colIdx sc cols with
  | some j =>
      have hjlt : j < r.length := by
        rw [hlen]
        exact colIdx_lt sc cols j hj
      simp only [hj, List.get?_append hjlt]
  | none =>
      have hnone : colIdx sc [c] = none := by
        simp [colIdx, Ne.symm (hc sc hsc)]
      simp [hj, hnone]

lemma parseNumeric_unknown : parseNumeric "Unknown" = none := by decide

lemma toNumeric_fill_fix (v : Value) :
    toNumeric (fillCell (toNumeric v)) = toNumeric v := by
  cases v with
  | num q => rfl
  | date d => rfl
  | missing => rfl
  | str s =>
      unfold toNumeric
      cases h : parseNumeric s with
      | some q => simp [h, fillCell]
      | none => simp [h, fillCell, parseNumeric_unknown]

lemma setColumnBy_eq_some (u : Table) (c : String) (f : List Value → Value) (i : Nat)
    (h : colIdx c u.cols = some i) :
    setColumnBy u c f = Table.mk u.cols (u.rows.map (fun r => r.set i (f r))) := by
  unfold setColumnBy
  rw [h]

lemma setColumnBy_eq_none (u : Table) (c : String) (f : List Value → Value)
    (h : colIdx c u.cols = none) :
    setColumnBy u c f = Table.mk (u.cols ++ [c]) (u.rows.map (fun r => r ++ [f r])) := by
  unfold setColumnBy
  rw [h]

lemma coerceColumn_eq_some (u : Table) (c : String) (f : Value → Value) (i : Nat)
    (h : colIdx c u.cols = some i) :
    coerceColumn u c f =
      Table.mk u.cols (u.rows.map (fun r => r.set i (f (r.getD i Value.missing)))) := by
  unfold coerceColumn
  rw [h]

lemma coerceColumn_eq_none (u : Table) (c : String) (f : Value → Value)
    (h : colIdx c u.cols = none) : coerceColumn u c f = u := by
  unfold coerceColumn
  rw [h]

lemma fillna_stripCols_fix_cols (t : Table) :
    (fillna (stripCols t)).cols.map pyStrip = (fillna (stripCols t)).cols := by
  show (t.cols.map pyStrip).map pyStrip = t.cols.map pyStrip
  rw [List.map_map]
  exact List.map_congr_left (fun a _ => pyStrip_idem a)

lemma fillna_stripCols_fix_rows (t : Table) :
    ∀ r ∈ (fillna (stripCols t)).rows, r.map fillCell = r := by
  intro r hr
  rcases List.mem_map.mp hr with ⟨r0, _, rfl⟩
  rw [List.map_map]
  exact List.map_congr_left (fun v _ => fillCell_idem v)

lemma fillna_stripCols_rect (t : Table) (ht : Rect t) :
    ∀ r ∈ (fillna (stripCols t)).rows, r.length = (fillna (stripCols t)).cols.length := by
  intro r hr
  rcases List.mem_map.mp hr with ⟨r0, hr0, rfl⟩
  show (r0.map fillCell).length = (t.cols.map pyStrip).length
  simp [List.length_map, ht r0 hr0]

lemma fillna_stripCols_of_fix (u : Table)
    (hcols : u.cols.map pyStrip = u.cols)
    (hrows : ∀ r ∈ u.rows, r.map fillCell = r) :
    fillna (stripCols u) = u := by
  show Table.mk (u.cols.map pyStrip) (u.rows.map (fun r => r.map fillCell)) = u
  rw [hcols]
  have h2 : u.rows.map (fun r => r.map fillCell) = u.rows :=
    (List.map_congr_left hrows).trans (List.map_id _)
  rw [h2]

lemma fillna_stripCols_setColumnBy (u : Table) (c : String) (f : List Value → Value)
    (hc : pyStrip c = c)
    (hcols : u.cols.map pyStrip = u.cols)
    (hrows : ∀ r ∈ u.rows, r.map fillCell = r)
    (hf : ∀ r, fillCell (f r) = f r) :
    fillna (stripCols (setColumnBy u c f)) = setColumnBy u c f := by
  cases hci : colIdx c u.cols with
  | some i =>
      rw [setColumnBy_eq_some u c f i hci]
      show Table.mk (u.cols.map pyStrip)
          ((u.rows.map (fun r => r.set i (f r))).map (fun r => r.map fillCell)) = _
      rw [hcols]
      congr 1
      rw [List.map_map]
      refine List.map_congr_left ?_
      intro r hr
      show (r.set i (f r)).map fillCell = r.set i (f r)
      rw [List.map_set, hrows r hr, hf r]
  | none =>
      rw [setColumnBy_eq_none u c f hci]
      show Table.mk ((u.cols ++ [c]).map pyStrip)
          ((u.rows.map (fun r => r ++ [f r])).map (fun r => r.map fillCell)) = _
      rw [List.map_append, hcols]
      congr 1
      · show u.cols ++ [pyStrip c] = u.cols ++ [c]
        rw [hc]
      · rw [List.map_map]
        refine List.map_congr_left ?_
        intro r hr
        show (r ++ [f r]).map fillCell = r ++ [f r]
        rw [List.map_append, hrows r hr]
        show r ++ [fillCell (f r)] = r ++ [f r]
        rw [hf r]

lemma setRating_stable (u : Table)
    (hcols : u.cols.map pyStrip = u.cols)
    (hrows : ∀ r ∈ u.rows, r.map fillCell = r)
    (hrect : ∀ r ∈ u.rows, r.length = u.cols.length) :
    clean_lass_body (setColumnBy u "rating_score"
        (fun r => Value.num (ratingScore service_columns u.cols r))) =
      setColumnBy u "rating_score"
        (fun r => Value.num (ratingScore service_columns u.cols r)) := by
  have hfix := fillna_stripCols_setColumnBy u "rating_score"
    (fun r => Value.num (ratingScore service_columns u.cols r)) (by decide) hcols hrows
    (fun r => rfl)
  show setColumnBy (fillna (stripCols (setColumnBy u "rating_score"
      (fun r => Value.num (ratingScore service_columns u.cols r))))) "rating_score"
      (fun r => Value.num (ratingScore service_columns (fillna (stripCols (setColumnBy u
        "rating_score" (fun r => Value.num (ratingScore service_columns u.cols r))))).cols r)) =
    setColumnBy u "rating_score" (fun r => Value.num (ratingScore service_columns u.cols r))
  rw [hfix]
  cases hci : colIdx "rating_score" u.cols with
  | some i =>
      rw [setColumnBy_eq_some u "rating_score" _ i hci]
      rw [setColumnBy_eq_some (Table.mk u.cols (u.rows.map (fun r =>
        r.set i (Value.num (ratingScore service_columns u.cols r))))) "rating_score" _ i hci]
      congr 1
      rw [List.map_map]
      refine List.map_congr_left ?_
      intro r hr
      show (r.set i (Value.num (ratingScore service_columns u.cols r))).set i
          (Value.num (ratingScore service_columns u.cols
            (r.set i (Value.num (ratingScore service_columns u.cols r))))) =
        r.set i (Value.num (ratingScore service_columns u.cols r))
      rw [List.set_set, ratingScore_set_irrelevant u.cols r i _ hci]
  | none =>
      rw [setColumnBy_eq_none u "rating_score" _ hci]
      have hidx : colIdx "rating_score" (u.cols ++ ["rating_score"]) = some u.cols.length := by
        rw [colIdx_append, hci]
        simp [colIdx]
      rw [setColumnBy_eq_some (Table.mk (u.cols ++ ["rating_score"]) (u.rows.map (fun r =>
        r ++ [Value.num (ratingScore service_columns u.cols r)]))) "rating_score" _
        u.cols.length hidx]
      congr 1
      rw [List.map_map]
      refine List.map_congr_left ?_
      intro r hr
      show (r ++ [Value.num (ratingScore service_columns u.cols r)]).set u.cols.length
          (Value.num (ratingScore service_columns (u.cols ++ ["rating_score"])
            (r ++ [Value.num (ratingScore service_columns u.cols r)]))) =
        r ++ [Value.num (ratingScore service_columns u.cols r)]
      rw [ratingScore_append_irrelevant u.cols r _ "rating_score" service_ne_rating
        (hrect r hr), ← hrect r hr, set_append_len]

lemma cleanLass_body_idem (t : Table) (ht : Rect t) :
    clean_lass_body (clean_lass_body t) = clean_lass_body t := by
  show clean_lass_body (setColumnBy (fillna (stripCols t)) "rating_score"
      (fun r => Value.num (ratingScore service_columns (fillna (stripCols t)).cols r))) = _
  exact setRating_stable (fillna (stripCols t)) (fillna_stripCols_fix_cols t)
    (fillna_stripCols_fix_rows t) (fillna_stripCols_rect t ht)

lemma cleanLep_body_idem (t : Table) (ht : Rect t) :
    clean_lep_body (clean_lep_body t) = clean_lep_body t := by
  have hcols := fillna_stripCols_fix_cols t
  have hrows := fillna_stripCols_fix_rows t
  have hrect := fillna_stripCols_rect t ht
  cases hci : colIdx lepCol (fillna (stripCols t)).cols with
  | none =>
      have h1 : clean_lep_body t = fillna (stripCols t) :=
        coerceColumn_eq_none (fillna (stripCols t)) lepCol toNumeric hci
      rw [h1]
      show coerceColumn (fillna (stripCols (fillna (stripCols t)))) lepCol toNumeric =
        fillna (stripCols t)
      rw [fillna_stripCols_of_fix _ hcols hrows]
      exact coerceColumn_eq_none _ _ _ hci
  | some i =>
      have h1 : clean_lep_body t = Table.mk (fillna (stripCols t)).cols
          ((fillna (stripCols t)).rows.map (fun r =>
            r.set i (toNumeric (r.getD i Value.missing)))) :=
        coerceColumn_eq_some (fillna (stripCols t)) lepCol toNumeric i hci
      rw [h1]
      show coerceColumn (fillna (stripCols (Table.mk (fillna (stripCols t)).cols
          ((fillna (stripCols t)).rows.map (fun r =>
            r.set i (toNumeric (r.getD i Value.missing))))))) lepCol toNumeric = _
      have h2 : fillna (stripCols (Table.mk (fillna (stripCols t)).cols
          ((fillna (stripCols t)).rows.map (fun r =>
            r.set i (toNumeric (r.getD i Value.missing)))))) =
          Table.mk (fillna (stripCols t)).cols
            (((fillna (stripCols t)).rows.map (fun r =>
              r.set i (toNumeric (r.getD i Value.missing)))).map
                (fun r => r.map fillCell)) := by
        show Table.mk ((fillna (stripCols t)).cols.map pyStrip) _ = _
        rw [hcols]
        rfl
      rw [h2]
      rw [coerceColumn_eq_some (Table.mk (fillna (stripCols t)).cols
        (((fillna (stripCols t)).rows.map (fun r =>
          r.set i (toNumeric (r.getD i Value.missing)))).map
            (fun r => r.map fillCell))) lepCol toNumeric i hci]
      congr 1
      rw [List.map_map, List.map_map]
      refine List.map_congr_left ?_
      intro r hr
      have hilt : i < r.length := by
        rw [hrect r hr]
        exact colIdx_lt lepCol (fillna (stripCols t)).cols i hci
      show ((r.set i (toNumeric (r.getD i Value.missing))).map fillCell).set i
          (toNumeric (((r.set i (toNumeric (r.getD i Value.missing))).map fillCell).getD i
            Value.missing)) =
        r.set i (toNumeric (r.getD i Value.missing))
      rw [List.map_set, hrows r hr]
      have hgd : ((r.set i (fillCell (toNumeric (r.getD i Value.missing)))).getD i
          Value.missing) = fillCell (toNumeric (r.getD i Value.missing)) := by
        have h3 : (r.set i (fillCell (toNumeric (r.getD i Value.missing))))[i]? =
            some (fillCell (toNumeric (r.getD i Value.missing))) :=
          List.getElem?_set_eq_of_lt _ hilt
        simp only [List.getD, List.get?_eq_getElem?] at h3 ⊢
        rw [h3]
        rfl
      rw [hgd, List.set_set, toNumeric_fill_fix]

/-- C5: cleaning is idempotent on every rectangular table, for both the
LASS pipeline (label trim, fill with the sentinel, rating-score
computation) and the LEP pipeline (trim, fill, numeric coercion of the
population column): applying the cleaning function twice yields the
same table as applying it once. -/
theorem C5_cleaning_idempotent (t : Table) (ht : Rect t) :
    clean_lass_data (clean_lass_data (some t)) = clean_lass_data (some t) ∧
    clean_lep_data (clean_lep_data (some t)) = clean_lep_data (some t) := by
  constructor
  · show some (clean_lass_body (clean_lass_body t)) = some (clean_lass_body t)
    rw [cleanLass_body_idem t ht]
  · show some (clean_lep_body (clean_lep_body t)) = some (clean_lep_body t)
    rw [cleanLep_body_idem t ht]

/-- Witness for C5 at a concrete rectangular table holding a missing
cell and a numeric string in the population column. -/
theorem C5_witness :
    Rect idemWitnessTable ∧
    clean_lass_data (clean_lass_data (some idemWitnessTable)) =
      clean_lass_data (some idemWitnessTable) ∧
    clean_lep_data (clean_lep_data (some idemWitnessTable)) =
      clean_lep_data (some idemWitnessTable) :=
  ⟨by decide, (C5_cleaning_idempotent idemWitnessTable (by decide)).1,
   (C5_cleaning_idempotent idemWitnessTable (by decide)).2⟩

end Dashboard
